import Mathlib

/-!
Verification development for the local persistent entity store of the
craftbank_csnavi application (source: `src/lib/database.ts`-style module found
in the repository, containing the IndexedDB-backed Project / Recording /
AnalysisRecord store, its codec `serializeForStorage` / `deserializeFromStorage`,
cascade deletes, secondary-index queries, statistics and export).

The development has two layers:

1. A value-level embedding of the generic codec.  JavaScript runtime values are
   modelled by `JSValue`; `serializeForStorage` models
   `JSON.parse(JSON.stringify(obj))` (Dates serialize through `toJSON` to their
   ISO-8601 string, Blobs have no enumerable own properties and serialize to
   `{}`, keys holding `undefined` are dropped — modelled as absent keys), and
   `deserializeFromStorage` models the recursive ISO-shaped-string sniffing of
   the source.

2. A typed embedding of the three-collection store.  Each collection is a list
   of typed records; IndexedDB `get`/`add`/`put`/`delete` by primary key become
   `find?` / guarded append / keyed replace / `filter`.  Timestamps (`Date`
   values) are epoch milliseconds as `Nat`, matching the non-negative values
   `Date.now()` produces.  The JSON round-trip applied at the storage boundary
   acts as the identity on every field the store logic itself reads (string
   ids, numbers, status strings), so the typed operations elide it; its actual
   effect on full records is studied in the codec layer.  `new Date()` and
   `generateId()` are nondeterministic inputs, so each operation that uses them
   takes the current time `now` and/or the generated id as an explicit argument.
-/

/-! ## Codec layer: JavaScript values and the JSON round-trip -/

/-- JavaScript runtime values as stored and retrieved by the codec.  `date` is
an epoch-millisecond timestamp (non-negative, as produced by `Date.now()`),
`invalidDate` is a `Date` holding NaN, `blob` is a binary payload given by its
byte sequence, and `obj` is an object with its (ordered) own enumerable
string-keyed properties; a field holding `undefined` is modelled as an absent
key. -/
inductive JSValue where
  | str : String → JSValue
  | num : Int → JSValue
  | bool : Bool → JSValue
  | null : JSValue
  | date : Nat → JSValue
  | invalidDate : JSValue
  | blob : List Nat → JSValue
  | arr : List JSValue → JSValue
  | obj : List (String × JSValue) → JSValue
  deriving Repr

/-- Left-pad a decimal numeral to two digits. -/
def pad2 (n : Nat) : String := if n < 10 then "0" ++ toString n else toString n

/-- Left-pad a decimal numeral to three digits. -/
def pad3 (n : Nat) : String :=
  if n < 10 then "00" ++ toString n else if n < 100 then "0" ++ toString n else toString n

/-- Left-pad a decimal numeral to four digits. -/
def pad4 (n : Nat) : String :=
  if n < 10 then "000" ++ toString n else if n < 100 then "00" ++ toString n
  else if n < 1000 then "0" ++ toString n else toString n

/-- Gregorian calendar date (year, month, day) of a day count since 1970-01-01
(the standard civil-from-days algorithm used by date libraries). -/
def civilFromDays (z : Nat) : Nat × Nat × Nat :=
  let zs := z + 719468
  let era := zs / 146097
  let doe := zs % 146097
  let yoe := (doe - doe / 1460 + doe / 36524 - doe / 146096) / 365
  let y := yoe + era * 400
  let doy := doe - (365 * yoe + yoe / 4 - yoe / 100)
  let mp := (5 * doy + 2) / 153
  let d := doy - (153 * mp + 2) / 5 + 1
  let m := if mp < 10 then mp + 3 else mp - 9
  (if m ≤ 2 then y + 1 else y, m, d)

/-- `Date.prototype.toISOString` on an epoch-millisecond timestamp:
`YYYY-MM-DDTHH:MM:SS.mmmZ`. -/
def toISOString (ms : Nat) : String :=
  let totalSecs := ms / 1000
  let days := totalSecs / 86400
  let secsOfDay := totalSecs % 86400
  let ymd := civilFromDays days
  pad4 ymd.1 ++ "-" ++ pad2 ymd.2.1 ++ "-" ++ pad2 ymd.2.2 ++ "T" ++
    pad2 (secsOfDay / 3600) ++ ":" ++ pad2 (secsOfDay % 3600 / 60) ++ ":" ++
    pad2 (secsOfDay % 60) ++ "." ++ pad3 (ms % 1000) ++ "Z"

/-- Day count since 1970-01-01 of a civil date (days-from-civil); negative for
dates before the epoch. -/
def daysFromCivil (y m d : Nat) : Int :=
  let ya := if m ≤ 2 then y - 1 else y
  let era := ya / 400
  let yoe := ya % 400
  let doy := (153 * (if 2 < m then m - 3 else m + 9) + 2) / 5 + d - 1
  let doe := yoe * 365 + yoe / 4 - yoe / 100 + doy
  (era * 146097 + doe : Int) - 719468

/-- Numeric value of a decimal digit character. -/
def digitVal (c : Char) : Nat := c.toNat - 48

/-- Fractional-second / timezone tail accepted after the 19-character ISO
prefix: empty, `Z`, or `.mmm` optionally followed by `Z`.  These are the only
tails the application ever feeds to `new Date(...)` (its stored strings are
exact `toISOString` output); other tails yield an invalid date here. -/
def parseTail : List Char → Option Nat
  | [] => some 0
  | ['Z'] => some 0
  | '.' :: a :: b :: c :: rest =>
    if a.isDigit && b.isDigit && c.isDigit && (rest == [] || rest == ['Z']) then
      some (100 * digitVal a + 10 * digitVal b + digitVal c)
    else none
  | _ => none

/-- `new Date(s)` on an ISO-8601 string, restricted to the post-epoch
timestamps this application produces: returns the epoch-millisecond value, or
`none` for an invalid date. -/
def parseIsoChars : List Char → Option Nat
  | y1 :: y2 :: y3 :: y4 :: '-' :: m1 :: m2 :: '-' :: d1 :: d2 :: 'T' ::
      h1 :: h2 :: ':' :: n1 :: n2 :: ':' :: s1 :: s2 :: rest =>
    if y1.isDigit && y2.isDigit && y3.isDigit && y4.isDigit && m1.isDigit && m2.isDigit &&
        d1.isDigit && d2.isDigit && h1.isDigit && h2.isDigit && n1.isDigit && n2.isDigit &&
        s1.isDigit && s2.isDigit then
      let y := 1000 * digitVal y1 + 100 * digitVal y2 + 10 * digitVal y3 + digitVal y4
      let m := 10 * digitVal m1 + digitVal m2
      let d := 10 * digitVal d1 + digitVal d2
      let h := 10 * digitVal h1 + digitVal h2
      let mi := 10 * digitVal n1 + digitVal n2
      let sec := 10 * digitVal s1 + digitVal s2
      match parseTail rest with
      | none => none
      | some msPart =>
        if 1 ≤ m && m ≤ 12 && 1 ≤ d && d ≤ 31 && h < 24 && mi < 60 && sec < 60 then
          match daysFromCivil y m d with
          | Int.ofNat days =>
            some (days * 86400000 + h * 3600000 + mi * 60000 + sec * 1000 + msPart)
          | Int.negSucc _ => none
        else none
    else none
  | _ => none

/-- The source's timestamp-sniffing test
`/^\d{4}-\d{2}-\d{2}T\d{2}:\d{2}:\d{2}/.test(value)`: the first 19 characters
have the shape `dddd-dd-ddTdd:dd:dd` (anything may follow). -/
def isoShapeTest : List Char → Bool
  | y1 :: y2 :: y3 :: y4 :: '-' :: m1 :: m2 :: '-' :: d1 :: d2 :: 'T' ::
      h1 :: h2 :: ':' :: n1 :: n2 :: ':' :: s1 :: s2 :: _ =>
    y1.isDigit && y2.isDigit && y3.isDigit && y4.isDigit && m1.isDigit && m2.isDigit &&
    d1.isDigit && d2.isDigit && h1.isDigit && h2.isDigit && n1.isDigit && n2.isDigit &&
    s1.isDigit && s2.isDigit
  | _ => false

mutual

/-- `serializeForStorage(obj) = JSON.parse(JSON.stringify(obj))` of the source:
Dates become their ISO string via `Date.prototype.toJSON` (an invalid Date
becomes `null`), a `Blob` has no enumerable own properties and becomes `{}`
(its bytes are not serialized by `JSON.stringify`), arrays and plain objects
recurse, primitives pass through. -/
def serializeForStorage : JSValue → JSValue
  | .str s => .str s
  | .num n => .num n
  | .bool b => .bool b
  | .null => .null
  | .date ms => .str (toISOString ms)
  | .invalidDate => .null
  | .blob _ => .obj []
  | .arr l => .arr (serializeList l)
  | .obj kvs => .obj (serializeEntries kvs)

/-- Element-wise `serializeForStorage` over a JSON array. -/
def serializeList : List JSValue → List JSValue
  | [] => []
  | v :: rest => serializeForStorage v :: serializeList rest

/-- Entry-wise `serializeForStorage` over the properties of a JSON object. -/
def serializeEntries : List (String × JSValue) → List (String × JSValue)
  | [] => []
  | (k, v) :: rest => (k, serializeForStorage v) :: serializeEntries rest

end

mutual

/-- `deserializeFromStorage(obj)` of the source: arrays map the function over
their elements (so a string element of an array is returned unchanged — the
ISO sniffing happens only on object property values), objects process each
property value with `deserializeValueInObj`, and non-objects are returned
unchanged. -/
def deserializeFromStorage : JSValue → JSValue
  | .arr l => .arr (deserializeList l)
  | .obj kvs => .obj (deserializeEntries kvs)
  | v => v

/-- Element-wise `deserializeFromStorage` over an array. -/
def deserializeList : List JSValue → List JSValue
  | [] => []
  | v :: rest => deserializeFromStorage v :: deserializeList rest

/-- Property-wise deserialization over an object's entries. -/
def deserializeEntries : List (String × JSValue) → List (String × JSValue)
  | [] => []
  | (k, v) :: rest => (k, deserializeValueInObj v) :: deserializeEntries rest

/-- The per-property-value branch of the source's object loop: a string whose
first 19 characters match the ISO timestamp regex is replaced by
`new Date(value)`, any other object-typed value is recursed into, and
everything else is kept. -/
def deserializeValueInObj : JSValue → JSValue
  | .str s =>
    if isoShapeTest s.data then
      match parseIsoChars s.data with
      | some ms => .date ms
      | none => .invalidDate
    else .str s
  | .arr l => .arr (deserializeList l)
  | .obj kvs => .obj (deserializeEntries kvs)
  | v => v

end

/-- Extract the `audioBlob` property of a stored object (used to compare a
Recording's binary payload across the round trip). -/
def audioBlobField : JSValue → Option JSValue
  | .obj kvs => kvs.lookup "audioBlob"
  | _ => none

/-! ## Typed data model (`src/types/project.ts`, `src/types/meeting.ts`,
`src/types/index.ts`) -/

/-- `ProjectStatus` of `src/types/project.ts`. -/
inductive ProjectStatus where
  | draft
  | in_progress
  | completed
  | archived
  deriving Repr, DecidableEq

/-- `RecordingSource` of `src/types/project.ts`. -/
inductive RecordingSource where
  | realtime
  | uploaded
  deriving Repr, DecidableEq

/-- Importance level `'high' | 'medium' | 'low'` shared by checklist items. -/
inductive Importance where
  | high
  | medium
  | low
  deriving Repr, DecidableEq

/-- `ChecklistItem` of `src/types/index.ts`. -/
structure ChecklistItem where
  id : String
  question : String
  importance : Importance
  keywords : List String
  deriving Repr, DecidableEq

/-- `ChecklistCategory` of `src/types/index.ts`. -/
structure ChecklistCategory where
  name : String
  items : List ChecklistItem
  deriving Repr, DecidableEq

/-- `Checklist` of `src/types/index.ts`. -/
structure Checklist where
  name : String
  description : String
  version : String
  categories : List ChecklistCategory
  deriving Repr, DecidableEq

/-- Match status `'covered' | 'missing' | 'partial'` of `MatchResult`. -/
inductive MatchStatus where
  | covered
  | missing
  | partial'
  deriving Repr, DecidableEq

/-- `MatchResult` of `src/types/index.ts`; `confidence` is a keyword-match
ratio in `[0, 1]`, modelled exactly as a rational. -/
structure MatchResult where
  item : ChecklistItem
  status : MatchStatus
  matchedText : Option String
  confidence : Option Rat
  deriving Repr, DecidableEq

/-- `AnalysisResult` of `src/types/index.ts`. -/
structure AnalysisResult where
  totalItems : Nat
  coveredItems : Nat
  missingItems : Nat
  partialItems : Nat
  coverageRate : Nat
  results : List MatchResult
  summary : String
  recommendations : List String
  deriving Repr, DecidableEq

/-- `ConstructionType` of `src/types/meeting.ts`. -/
inductive ConstructionType where
  | civil_engineering
  | building
  | electrical
  | plumbing
  | interior
  | painting
  | waterproofing
  | scaffolding
  | demolition
  | landscaping
  | other
  deriving Repr, DecidableEq

/-- `EmployeeScale` of `src/types/meeting.ts`. -/
inductive EmployeeScale where
  | micro
  | small
  | medium
  | large
  | enterprise
  deriving Repr, DecidableEq

/-- `RevenueScale` of `src/types/meeting.ts`. -/
inductive RevenueScale where
  | under_100m
  | r100m_500m
  | r500m_1b
  | r1b_5b
  | over_5b
  deriving Repr, DecidableEq

/-- `ContractorType` of `src/types/meeting.ts`. -/
inductive ContractorType where
  | prime_only
  | prime_heavy
  | mixed
  | sub_heavy
  | sub_only
  deriving Repr, DecidableEq

/-- `ProjectType` of `src/types/meeting.ts`. -/
inductive ProjectType where
  | public_only
  | public_heavy
  | mixed
  | private_heavy
  | private_only
  deriving Repr, DecidableEq

/-- `OutsourcingLevel` of `src/types/meeting.ts`. -/
inductive OutsourcingLevel where
  | none'
  | few
  | moderate
  | many
  deriving Repr, DecidableEq

/-- `CurrentSystemUsage` of `src/types/meeting.ts`. -/
inductive CurrentSystemUsage where
  | paper
  | excel
  | other_system
  | mixed
  deriving Repr, DecidableEq

/-- `ITLiteracy` of `src/types/meeting.ts`. -/
inductive ITLiteracy where
  | low
  | moderate
  | high
  deriving Repr, DecidableEq

/-- `Urgency` of `src/types/meeting.ts`. -/
inductive Urgency where
  | immediate
  | within_quarter
  | within_half
  | exploring
  deriving Repr, DecidableEq

/-- `PainPoint` of `src/types/meeting.ts`. -/
inductive PainPoint where
  | estimation
  | invoicing
  | cost_management
  | attendance
  | schedule
  | document
  | communication
  | subcontractor
  deriving Repr, DecidableEq

/-- `MeetingVariables` of `src/types/meeting.ts`. -/
structure MeetingVariables where
  companyName : Option String
  constructionTypes : List ConstructionType
  employeeScale : EmployeeScale
  revenueScale : RevenueScale
  contractorType : ContractorType
  projectType : ProjectType
  outsourcingLevel : OutsourcingLevel
  concurrentProjects : Option Nat
  currentSystem : CurrentSystemUsage
  itLiteracy : ITLiteracy
  painPoints : List PainPoint
  urgency : Urgency
  additionalNotes : Option String
  deriving Repr, DecidableEq

/-- `CustomizedChecklistItem` of `src/types/meeting.ts`. -/
structure CustomizedChecklistItem where
  id : String
  question : String
  importance : Importance
  category : String
  reason : String
  followUpQuestions : Option (List String)
  deriving Repr, DecidableEq

/-- `ProposalFeature` of `src/types/meeting.ts`. -/
structure ProposalFeature where
  featureName : String
  relevanceScore : Nat
  pitch : String
  useCase : String
  deriving Repr, DecidableEq

/-- `ObjectionHandler` of `src/types/meeting.ts`. -/
structure ObjectionHandler where
  objection : String
  response : String
  deriving Repr, DecidableEq

/-- `ProposalStrategy` of `src/types/meeting.ts`. -/
structure ProposalStrategy where
  keyFeatures : List ProposalFeature
  differentiators : List String
  potentialObjections : List ObjectionHandler
  closingApproach : String
  deriving Repr, DecidableEq

/-- Conversation phase of `ConversationFlowStep`. -/
inductive ConversationPhase where
  | opening
  | discovery
  | presentation
  | handling
  | closing
  deriving Repr, DecidableEq

/-- `ConversationFlowStep` of `src/types/meeting.ts`. -/
structure ConversationFlowStep where
  phase : ConversationPhase
  phaseName : String
  duration : String
  objectives : List String
  keyPoints : List String
  transitionPhrase : Option String
  deriving Repr, DecidableEq

/-- `CustomizedMeetingPlan` of `src/types/meeting.ts`; `generatedAt` is an
epoch-millisecond timestamp. -/
structure CustomizedMeetingPlan where
  generatedAt : Nat
  variables' : MeetingVariables
  checklistItems : List CustomizedChecklistItem
  proposalStrategy : ProposalStrategy
  conversationFlow : List ConversationFlowStep
  deriving Repr, DecidableEq

/-- A browser `Blob`: an opaque binary payload (byte sequence) with a MIME
type; `size` is its byte length. -/
structure Blob where
  data : List Nat
  type : String
  deriving Repr, DecidableEq

/-- `blob.size` — the byte length of the payload. -/
def Blob.size (b : Blob) : Nat := b.data.length

/-- `Project` of `src/types/project.ts`; `createdAt` / `updatedAt` are epoch
milliseconds. -/
structure Project where
  id : String
  name : String
  description : Option String
  status : ProjectStatus
  createdAt : Nat
  updatedAt : Nat
  meetingVariables : Option MeetingVariables
  meetingPlan : Option CustomizedMeetingPlan
  checklist : Option Checklist
  recordingIds : List String
  deriving Repr, DecidableEq

/-- `Recording` of `src/types/project.ts`; `duration` is whole seconds (no
claim depends on fractional durations). -/
structure Recording where
  id : String
  projectId : String
  name : String
  createdAt : Nat
  duration : Nat
  audioBlob : Blob
  mimeType : String
  fileSize : Nat
  source : RecordingSource
  transcript : Option String
  transcribedAt : Option Nat
  analysisIds : List String
  deriving Repr, DecidableEq

/-- `AnalysisRecord` of `src/types/project.ts`. -/
structure AnalysisRecord where
  id : String
  recordingId : String
  projectId : String
  createdAt : Nat
  checklistSnapshot : Checklist
  result : AnalysisResult
  transcriptSnapshot : String
  deriving Repr, DecidableEq

/-- `CreateProjectInput` of `src/types/project.ts`. -/
structure CreateProjectInput where
  name : String
  description : Option String
  meetingVariables : Option MeetingVariables
  meetingPlan : Option CustomizedMeetingPlan
  checklist : Option Checklist
  deriving Repr, DecidableEq

/-- `UpdateProjectInput` of `src/types/project.ts`: a patch object.  A field
that is `none` models a key absent from the patch (the existing value is
kept); `some v` models a present key that overwrites the field.  Every call
site inside the store passes object literals, so present-but-`undefined` keys
do not arise. -/
structure UpdateProjectInput where
  name : Option String := none
  description : Option String := none
  status : Option ProjectStatus := none
  meetingVariables : Option MeetingVariables := none
  meetingPlan : Option CustomizedMeetingPlan := none
  checklist : Option Checklist := none
  recordingIds : Option (List String) := none
  deriving Repr, DecidableEq

/-- `CreateRecordingInput` of `src/types/project.ts`. -/
structure CreateRecordingInput where
  projectId : String
  name : String
  audioBlob : Blob
  mimeType : String
  duration : Nat
  source : RecordingSource
  transcript : Option String
  deriving Repr, DecidableEq

/-- Per-status Project counts, i.e. the `projectsByStatus` record initialized
with the four status keys in `getProjectStats`. -/
structure StatusCounts where
  draft : Nat
  in_progress : Nat
  completed : Nat
  archived : Nat
  deriving Repr, DecidableEq

/-- `ProjectStats` of `src/types/project.ts`. -/
structure ProjectStats where
  totalProjects : Nat
  projectsByStatus : StatusCounts
  totalRecordings : Nat
  totalAnalyses : Nat
  totalRecordingDuration : Nat
  deriving Repr, DecidableEq

/-- The three IndexedDB object stores (`projects`, `recordings`, `analyses`),
each keyed by the record's `id`. -/
structure DB where
  projects : List Project
  recordings : List Recording
  analyses : List AnalysisRecord
  deriving Repr, DecidableEq

/-! ## Store operations (`src/lib` database module)

Each operation mirrors the source function of the same name.  IndexedDB
primitives: `store.get(id)` is `find?` on the collection, `store.add(x)`
rejects when the key already exists (modelled as an `Option` result) and
otherwise appends, `store.put(x)` replaces the record with the same key (or
appends when absent), and `store.delete(id)` removes the record with that key
— its success event fires whether or not a record existed, which is why every
delete function resolves `true`.  Index retrievals (`index.getAll(k)`) return
exactly the records whose indexed field equals `k`; no claim depends on the
order of these index results, so they are modelled as `filter` in storage
order. -/

/-- `store.put` on the `projects` collection: replace the record keyed by
`p.id`, or append when no such key exists. -/
def putProject (l : List Project) (p : Project) : List Project :=
  if l.any (fun q => q.id == p.id) then l.map (fun q => if q.id == p.id then p else q)
  else l ++ [p]

/-- `store.put` on the `recordings` collection. -/
def putRecording (l : List Recording) (r : Recording) : List Recording :=
  if l.any (fun q => q.id == r.id) then l.map (fun q => if q.id == r.id then r else q)
  else l ++ [r]

/-- `createProject(input)`: builds the new draft Project with the generated
`id` and both timestamps set to `now`, then `store.add`s it (rejecting a
duplicate id). -/
def createProject (db : DB) (now : Nat) (newId : String) (input : CreateProjectInput) :
    Option (Project × DB) :=
  let project : Project :=
    { id := newId, name := input.name, description := input.description,
      status := .draft, createdAt := now, updatedAt := now,
      meetingVariables := input.meetingVariables, meetingPlan := input.meetingPlan,
      checklist := input.checklist, recordingIds := [] }
  if db.projects.any (fun p => p.id == newId) then none
  else some (project, { db with projects := db.projects ++ [project] })

/-- `getProject(id)`: `store.get(id)`, `null` when absent. -/
def getProject (db : DB) (id : String) : Option Project :=
  db.projects.find? (fun p => p.id == id)

/-- Cursor order of `index('updatedAt').openCursor(null, 'prev')`: descending
by the indexed `updatedAt` key, descending by primary key `id` among equal
index keys.  The index key is the stored ISO string of `updatedAt`; for the
years 1000–9999 that `Date.now()`-derived timestamps fall in, lexicographic
order of the ISO strings coincides with numeric order of the underlying epoch
milliseconds, so the order is modelled on the numeric value directly. -/
def projOrder (p q : Project) : Prop :=
  q.updatedAt < p.updatedAt ∨ (p.updatedAt = q.updatedAt ∧ q.id ≤ p.id)

instance : DecidableRel projOrder := fun p q => by
  unfold projOrder; infer_instance

instance : IsTotal Project projOrder where
  total p q := by
    rcases Nat.lt_trichotomy p.updatedAt q.updatedAt with h | h | h
    · exact Or.inr (Or.inl h)
    · rcases le_total q.id p.id with h2 | h2
      · exact Or.inl (Or.inr ⟨h, h2⟩)
      · exact Or.inr (Or.inr ⟨h.symm, h2⟩)
    · exact Or.inl (Or.inl h)

instance : IsTrans Project projOrder where
  trans p q r hpq hqr := by
    rcases hpq with h1 | ⟨e1, i1⟩
    · rcases hqr with h2 | ⟨e2, i2⟩
      · exact Or.inl (h2.trans h1)
      · exact Or.inl (e2 ▸ h1)
    · rcases hqr with h2 | ⟨e2, i2⟩
      · exact Or.inl (e1 ▸ h2)
      · exact Or.inr ⟨e1.trans e2, i2.trans i1⟩

/-- `getAllProjects()`: all Projects, in the order produced by walking the
`updatedAt` index with a `'prev'` cursor (most recently updated first). -/
def getAllProjects (db : DB) : List Project :=
  db.projects.insertionSort projOrder

/-- Merging an `UpdateProjectInput` patch onto an existing Project
(`{ ...existing, ...input, updatedAt: new Date() }`). -/
def applyProjectUpdate (existing : Project) (input : UpdateProjectInput) (now : Nat) :
    Project :=
  { existing with
    name := input.name.getD existing.name,
    description := match input.description with
      | some v => some v
      | none => existing.description,
    status := input.status.getD existing.status,
    meetingVariables := match input.meetingVariables with
      | some v => some v
      | none => existing.meetingVariables,
    meetingPlan := match input.meetingPlan with
      | some v => some v
      | none => existing.meetingPlan,
    checklist := match input.checklist with
      | some v => some v
      | none => existing.checklist,
    recordingIds := input.recordingIds.getD existing.recordingIds,
    updatedAt := now }

/-- `updateProject(id, input)`: fetch the existing Project (resolving `null`
when absent), merge the patch, always advance `updatedAt` to the current
time, and `store.put` the result. -/
def updateProject (db : DB) (now : Nat) (id : String) (input : UpdateProjectInput) :
    Option Project × DB :=
  match db.projects.find? (fun p => p.id == id) with
  | none => (none, db)
  | some existing =>
    let updated := applyProjectUpdate existing input now
    (some updated, { db with projects := putProject db.projects updated })

/-- `getRecording(id)`. -/
def getRecording (db : DB) (id : String) : Option Recording :=
  db.recordings.find? (fun r => r.id == id)

/-- `getRecordingsByProject(projectId)`: `index('projectId').getAll(projectId)`. -/
def getRecordingsByProject (db : DB) (projectId : String) : List Recording :=
  db.recordings.filter (fun r => r.projectId == projectId)

/-- `getAnalysis(id)`. -/
def getAnalysis (db : DB) (id : String) : Option AnalysisRecord :=
  db.analyses.find? (fun a => a.id == id)

/-- `getAnalysesByRecording(recordingId)`: `index('recordingId').getAll(...)`. -/
def getAnalysesByRecording (db : DB) (recordingId : String) : List AnalysisRecord :=
  db.analyses.filter (fun a => a.recordingId == recordingId)

/-- `getAnalysesByProject(projectId)`: `index('projectId').getAll(...)`. -/
def getAnalysesByProject (db : DB) (projectId : String) : List AnalysisRecord :=
  db.analyses.filter (fun a => a.projectId == projectId)

/-- `deleteAnalysis(id)`: `store.delete(id)` on the `analyses` collection;
resolves `true` unconditionally (the delete request succeeds whether or not a
record with that key existed). -/
def deleteAnalysis (db : DB) (id : String) : Bool × DB :=
  (true, { db with analyses := db.analyses.filter (fun a => !(a.id == id)) })

/-- The Recording literal built by `createRecording`: `fileSize` is the blob's
byte length, and `transcribedAt` is stamped only for a truthy (non-empty)
transcript (`input.transcript ? now : undefined`). -/
def mkRecording (now : Nat) (newId : String) (input : CreateRecordingInput) : Recording :=
  { id := newId, projectId := input.projectId, name := input.name, createdAt := now,
    duration := input.duration, audioBlob := input.audioBlob,
    mimeType := input.mimeType, fileSize := input.audioBlob.size,
    source := input.source, transcript := input.transcript,
    transcribedAt := if input.transcript.getD "" == "" then none else some now,
    analysisIds := [] }

/-- `createRecording(input)`: builds the Recording, then — before storing it —
appends its id to the parent Project's `recordingIds` via `updateProject` when
that Project exists, and finally `store.add`s the Recording. -/
def createRecording (db : DB) (now : Nat) (newId : String) (input : CreateRecordingInput) :
    Option (Recording × DB) :=
  let recording : Recording := mkRecording now newId input
  let db1 :=
    match getProject db input.projectId with
    | some project =>
      (updateProject db now input.projectId
        { name := some project.name, description := project.description,
          status := some project.status, meetingVariables := project.meetingVariables,
          meetingPlan := project.meetingPlan, checklist := project.checklist,
          recordingIds := some (project.recordingIds ++ [recording.id]) }).2
    | none => db
  if db1.recordings.any (fun r => r.id == newId) then none
  else some (recording, { db1 with recordings := db1.recordings ++ [recording] })

/-- `updateRecordingTranscript(id, transcript)`: fetch, overwrite `transcript`,
stamp `transcribedAt` with the current time, `store.put`. -/
def updateRecordingTranscript (db : DB) (now : Nat) (id : String) (transcript : String) :
    Option Recording × DB :=
  match db.recordings.find? (fun r => r.id == id) with
  | none => (none, db)
  | some existing =>
    let updated := { existing with transcript := some transcript, transcribedAt := some now }
    (some updated, { db with recordings := putRecording db.recordings updated })

/-- `deleteRecording(id)`: delete every AnalysisRecord returned by
`getAnalysesByRecording(id)` (one `deleteAnalysis` each), then remove this id
from the parent Project's `recordingIds` (when both the Recording and its
Project exist), then `store.delete` the Recording; resolves `true`
unconditionally. -/
def deleteRecording (db : DB) (now : Nat) (id : String) : Bool × DB :=
  let analyses := getAnalysesByRecording db id
  let db1 := analyses.foldl (fun acc a => (deleteAnalysis acc a.id).2) db
  let db2 :=
    match getRecording db1 id with
    | none => db1
    | some recording =>
      match getProject db1 recording.projectId with
      | none => db1
      | some project =>
        (updateProject db1 now recording.projectId
          { recordingIds := some (project.recordingIds.filter (fun rid => !(rid == id))) }).2
  (true, { db2 with recordings := db2.recordings.filter (fun r => !(r.id == id)) })

/-- `deleteProject(id)`: `deleteRecording` every Recording returned by
`getRecordingsByProject(id)`, then `store.delete` the Project; resolves `true`
unconditionally. -/
def deleteProject (db : DB) (now : Nat) (id : String) : Bool × DB :=
  let recordings := getRecordingsByProject db id
  let db1 := recordings.foldl (fun acc r => (deleteRecording acc now r.id).2) db
  (true, { db1 with projects := db1.projects.filter (fun p => !(p.id == id)) })

/-- The AnalysisRecord literal built by `createAnalysis`. -/
def mkAnalysis (now : Nat) (newId recordingId projectId : String)
    (checklistSnapshot : Checklist) (result : AnalysisResult) (transcriptSnapshot : String) :
    AnalysisRecord :=
  { id := newId, recordingId := recordingId, projectId := projectId, createdAt := now,
    checklistSnapshot := checklistSnapshot, result := result,
    transcriptSnapshot := transcriptSnapshot }

/-- `createAnalysis(recordingId, projectId, checklistSnapshot, result,
transcriptSnapshot)`: builds the AnalysisRecord, appends its id to the parent
Recording's `analysisIds` via `store.put` when that Recording exists, then
`store.add`s the AnalysisRecord. -/
def createAnalysis (db : DB) (now : Nat) (newId : String) (recordingId projectId : String)
    (checklistSnapshot : Checklist) (result : AnalysisResult) (transcriptSnapshot : String) :
    Option (AnalysisRecord × DB) :=
  let analysis : AnalysisRecord := mkAnalysis now newId recordingId projectId
    checklistSnapshot result transcriptSnapshot
  let db1 :=
    match getRecording db recordingId with
    | some recording =>
      let linked := { recording with analysisIds := recording.analysisIds ++ [analysis.id] }
      { db with recordings := putRecording db.recordings linked }
    | none => db
  if db1.analyses.any (fun a => a.id == newId) then none
  else some (analysis, { db1 with analyses := db1.analyses ++ [analysis] })

/-- Accumulator of the `getProjectStats` loop (the four mutable totals of the
source function; `projectsByStatus` starts with all four statuses at 0). -/
structure StatsAcc where
  projectsByStatus : StatusCounts
  totalRecordings : Nat
  totalAnalyses : Nat
  totalRecordingDuration : Nat
  deriving Repr, DecidableEq

/-- `projectsByStatus[status]++`. -/
def StatusCounts.incr (c : StatusCounts) : ProjectStatus → StatusCounts
  | .draft => { c with draft := c.draft + 1 }
  | .in_progress => { c with in_progress := c.in_progress + 1 }
  | .completed => { c with completed := c.completed + 1 }
  | .archived => { c with archived := c.archived + 1 }

/-- Inner loop body of `getProjectStats`: accumulate one Recording's duration
and its AnalysisRecord count. -/
def statsInnerStep (db : DB) (acc : StatsAcc) (r : Recording) : StatsAcc :=
  { acc with
    totalRecordingDuration := acc.totalRecordingDuration + r.duration,
    totalAnalyses := acc.totalAnalyses + (getAnalysesByRecording db r.id).length }

/-- Outer loop body of `getProjectStats`: count the Project under its status,
add its Recording count, then run the inner loop over its Recordings. -/
def statsStep (db : DB) (acc : StatsAcc) (p : Project) : StatsAcc :=
  let recs := getRecordingsByProject db p.id
  let acc1 :=
    { acc with
      projectsByStatus := acc.projectsByStatus.incr p.status,
      totalRecordings := acc.totalRecordings + recs.length }
  recs.foldl (statsInnerStep db) acc1

/-- `getProjectStats()`: full scan over `getAllProjects()`, per-Project
Recording counts via `getRecordingsByProject`, per-Recording AnalysisRecord
counts via `getAnalysesByRecording`. -/
def getProjectStats (db : DB) : ProjectStats :=
  let projects := getAllProjects db
  let acc := projects.foldl (statsStep db) ⟨⟨0, 0, 0, 0⟩, 0, 0, 0⟩
  { totalProjects := projects.length,
    projectsByStatus := acc.projectsByStatus,
    totalRecordings := acc.totalRecordings,
    totalAnalyses := acc.totalAnalyses,
    totalRecordingDuration := acc.totalRecordingDuration }

/-- A Recording with the `audioBlob` field stripped
(`Omit<Recording, 'audioBlob'>` of `exportAllData`). -/
structure RecordingMeta where
  id : String
  projectId : String
  name : String
  createdAt : Nat
  duration : Nat
  mimeType : String
  fileSize : Nat
  source : RecordingSource
  transcript : Option String
  transcribedAt : Option Nat
  analysisIds : List String
  deriving Repr, DecidableEq

/-- `const { audioBlob, ...recordingWithoutBlob } = recording`. -/
def Recording.stripBlob (r : Recording) : RecordingMeta :=
  { id := r.id, projectId := r.projectId, name := r.name, createdAt := r.createdAt,
    duration := r.duration, mimeType := r.mimeType, fileSize := r.fileSize,
    source := r.source, transcript := r.transcript, transcribedAt := r.transcribedAt,
    analysisIds := r.analysisIds }

/-- Result shape of `exportAllData`. -/
structure ExportData where
  projects : List Project
  recordings : List RecordingMeta
  analyses : List AnalysisRecord
  deriving Repr, DecidableEq

/-- Inner loop body of `exportAllData`: push one Recording stripped of its
blob and append that Recording's `getAnalysesByRecording` results. -/
def exportRecStep (db : DB) (acc : List RecordingMeta × List AnalysisRecord) (r : Recording) :
    List RecordingMeta × List AnalysisRecord :=
  (acc.1 ++ [r.stripBlob], acc.2 ++ getAnalysesByRecording db r.id)

/-- Outer loop body of `exportAllData`: walk one Project's
`getRecordingsByProject` results. -/
def exportProjStep (db : DB) (acc : List RecordingMeta × List AnalysisRecord) (p : Project) :
    List RecordingMeta × List AnalysisRecord :=
  (getRecordingsByProject db p.id).foldl (exportRecStep db) acc

/-- `exportAllData()`: walk `getAllProjects()`, and under each Project walk
`getRecordingsByProject`, pushing each Recording stripped of its blob and
appending that Recording's `getAnalysesByRecording` results. -/
def exportAllData (db : DB) : ExportData :=
  let projects := getAllProjects db
  let acc := projects.foldl (exportProjStep db) ([], [])
  { projects := projects, recordings := acc.1, analyses := acc.2 }

/-- `clearAllData()`: unconditional wipe of all three collections. -/
def clearAllData (_db : DB) : DB :=
  { projects := [], recordings := [], analyses := [] }

/-! ## Helper lemmas about the operations -/

theorem updateProject_recordings (db : DB) (now : Nat) (id : String)
    (input : UpdateProjectInput) :
    (updateProject db now id input).2.recordings = db.recordings := by
  unfold updateProject
  cases db.projects.find? (fun p => p.id == id) <;> rfl

theorem updateProject_analyses (db : DB) (now : Nat) (id : String)
    (input : UpdateProjectInput) :
    (updateProject db now id input).2.analyses = db.analyses := by
  unfold updateProject
  cases db.projects.find? (fun p => p.id == id) <;> rfl

theorem delAnaFold_projects (l : List AnalysisRecord) (db : DB) :
    (l.foldl (fun acc a => (deleteAnalysis acc a.id).2) db).projects = db.projects := by
  induction l generalizing db with
  | nil => rfl
  | cons a l ih => rw [List.foldl_cons, ih]; rfl

theorem delAnaFold_recordings (l : List AnalysisRecord) (db : DB) :
    (l.foldl (fun acc a => (deleteAnalysis acc a.id).2) db).recordings = db.recordings := by
  induction l generalizing db with
  | nil => rfl
  | cons a l ih => rw [List.foldl_cons, ih]; rfl

theorem delAnaFold_analyses_mem (l : List AnalysisRecord) (db : DB) (x : AnalysisRecord) :
    x ∈ (l.foldl (fun acc a => (deleteAnalysis acc a.id).2) db).analyses ↔
      x ∈ db.analyses ∧ ∀ a ∈ l, x.id ≠ a.id := by
  induction l generalizing db with
  | nil => simp
  | cons a l ih =>
    rw [List.foldl_cons, ih]
    simp only [deleteAnalysis, List.mem_filter, List.mem_cons, Bool.not_eq_true',
      beq_eq_false_iff_ne, ne_eq]
    constructor
    · rintro ⟨⟨hx, hne⟩, hall⟩
      exact ⟨hx, fun b hb => by rcases hb with rfl | hb; exact hne; exact hall b hb⟩
    · rintro ⟨hx, hall⟩
      exact ⟨⟨hx, hall a (Or.inl rfl)⟩, fun b hb => hall b (Or.inr hb)⟩

theorem deleteRecording_recordings (db : DB) (now : Nat) (id : String) :
    (deleteRecording db now id).2.recordings
      = db.recordings.filter (fun r => !(r.id == id)) := by
  unfold deleteRecording
  have h1 : ((getAnalysesByRecording db id).foldl
      (fun acc a => (deleteAnalysis acc a.id).2) db).recordings = db.recordings :=
    delAnaFold_recordings _ _
  dsimp only
  cases hr : getRecording ((getAnalysesByRecording db id).foldl
      (fun acc a => (deleteAnalysis acc a.id).2) db) id with
  | none => dsimp only; rw [h1]
  | some rec =>
    dsimp only
    cases hp : getProject ((getAnalysesByRecording db id).foldl
        (fun acc a => (deleteAnalysis acc a.id).2) db) rec.projectId with
    | none => dsimp only; rw [h1]
    | some proj => dsimp only; rw [updateProject_recordings, h1]

theorem deleteRecording_analyses_mem (db : DB) (now : Nat) (id : String) (x : AnalysisRecord) :
    x ∈ (deleteRecording db now id).2.analyses ↔
      x ∈ db.analyses ∧ ∀ a ∈ getAnalysesByRecording db id, x.id ≠ a.id := by
  unfold deleteRecording
  have h1 := delAnaFold_analyses_mem (getAnalysesByRecording db id) db x
  dsimp only
  cases hr : getRecording ((getAnalysesByRecording db id).foldl
      (fun acc a => (deleteAnalysis acc a.id).2) db) id with
  | none => exact h1
  | some rec =>
    dsimp only
    cases hp : getProject ((getAnalysesByRecording db id).foldl
        (fun acc a => (deleteAnalysis acc a.id).2) db) rec.projectId with
    | none => exact h1
    | some proj => dsimp only; rw [updateProject_analyses]; exact h1

theorem deleteRecording_kills_analyses (db : DB) (now : Nat) (id : String) (x : AnalysisRecord)
    (hx : x ∈ (deleteRecording db now id).2.analyses) : x.recordingId ≠ id := by
  rcases (deleteRecording_analyses_mem db now id x).mp hx with ⟨hmem, hall⟩
  intro hrec
  exact hall x (List.mem_filter.mpr ⟨hmem, by simp [hrec]⟩) rfl

theorem deleteRecording_preserves_analysis (db : DB) (now : Nat) (id : String)
    (x : AnalysisRecord) (hx : x ∈ db.analyses)
    (huni : ∀ b ∈ db.analyses, b.id = x.id → b = x)
    (hne : x.recordingId ≠ id) :
    x ∈ (deleteRecording db now id).2.analyses := by
  refine (deleteRecording_analyses_mem db now id x).mpr ⟨hx, fun a ha hid => ?_⟩
  rcases List.mem_filter.mp ha with ⟨hamem, hrec⟩
  have : a = x := huni a hamem hid.symm
  subst this
  exact hne (by simpa using hrec)

theorem delRecFold_recordings_mem (l : List Recording) (db : DB) (now : Nat) (x : Recording) :
    x ∈ (l.foldl (fun acc r => (deleteRecording acc now r.id).2) db).recordings ↔
      x ∈ db.recordings ∧ ∀ r ∈ l, x.id ≠ r.id := by
  induction l generalizing db with
  | nil => simp
  | cons r l ih =>
    rw [List.foldl_cons, ih, deleteRecording_recordings]
    simp only [List.mem_filter, List.mem_cons, Bool.not_eq_true', beq_eq_false_iff_ne, ne_eq]
    constructor
    · rintro ⟨⟨hx, hne⟩, hall⟩
      exact ⟨hx, fun s hs => by rcases hs with rfl | hs; exact hne; exact hall s hs⟩
    · rintro ⟨hx, hall⟩
      exact ⟨⟨hx, hall r (Or.inl rfl)⟩, fun s hs => hall s (Or.inr hs)⟩

theorem delRecFold_analyses_sub (l : List Recording) (db : DB) (now : Nat) (x : AnalysisRecord)
    (hx : x ∈ (l.foldl (fun acc r => (deleteRecording acc now r.id).2) db).analyses) :
    x ∈ db.analyses ∧ ∀ r ∈ l, x.recordingId ≠ r.id := by
  induction l generalizing db with
  | nil => simpa using hx
  | cons r l ih =>
    rw [List.foldl_cons] at hx
    rcases ih _ hx with ⟨hmem, hall⟩
    have hmem2 := (deleteRecording_analyses_mem db now r.id x).mp hmem
    refine ⟨hmem2.1, fun s hs => ?_⟩
    rcases List.mem_cons.mp hs with rfl | hs2
    · exact deleteRecording_kills_analyses db now s.id x hmem
    · exact hall s hs2

theorem delRecFold_preserves_analysis (l : List Recording) (db : DB) (now : Nat)
    (x : AnalysisRecord) (hx : x ∈ db.analyses)
    (huni : ∀ b ∈ db.analyses, b.id = x.id → b = x)
    (hne : ∀ r ∈ l, x.recordingId ≠ r.id) :
    x ∈ (l.foldl (fun acc r => (deleteRecording acc now r.id).2) db).analyses := by
  induction l generalizing db with
  | nil => simpa using hx
  | cons r l ih =>
    rw [List.foldl_cons]
    have hx2 : x ∈ (deleteRecording db now r.id).2.analyses :=
      deleteRecording_preserves_analysis db now r.id x hx huni (hne r (List.mem_cons_self r l))
    refine ih _ hx2 (fun b hb hid => ?_) (fun s hs => hne s (List.mem_cons_of_mem r hs))
    exact huni b ((deleteRecording_analyses_mem db now r.id b).mp hb).1 hid

theorem deleteProject_recordings_mem (db : DB) (now : Nat) (pid : String) (x : Recording) :
    x ∈ (deleteProject db now pid).2.recordings ↔
      x ∈ db.recordings ∧ ∀ r ∈ getRecordingsByProject db pid, x.id ≠ r.id := by
  unfold deleteProject
  exact delRecFold_recordings_mem _ _ _ _

theorem deleteProject_analyses_sub (db : DB) (now : Nat) (pid : String) (x : AnalysisRecord)
    (hx : x ∈ (deleteProject db now pid).2.analyses) :
    x ∈ db.analyses ∧ ∀ r ∈ getRecordingsByProject db pid, x.recordingId ≠ r.id := by
  unfold deleteProject at hx
  exact delRecFold_analyses_sub _ _ _ _ hx

theorem deleteProject_preserves_analysis (db : DB) (now : Nat) (pid : String)
    (x : AnalysisRecord) (hx : x ∈ db.analyses)
    (huni : ∀ b ∈ db.analyses, b.id = x.id → b = x)
    (hne : ∀ r ∈ getRecordingsByProject db pid, x.recordingId ≠ r.id) :
    x ∈ (deleteProject db now pid).2.analyses := by
  unfold deleteProject
  exact delRecFold_preserves_analysis _ _ _ _ hx huni hne

theorem getProject_deleteProject_self (db : DB) (now : Nat) (pid : String) :
    getProject (deleteProject db now pid).2 pid = none := by
  unfold deleteProject getProject
  dsimp only
  refine List.find?_eq_none.mpr (fun p hp => ?_)
  have := (List.mem_filter.mp hp).2
  simpa using this

theorem getRecordingsByProject_deleteProject_self (db : DB) (now : Nat) (pid : String) :
    getRecordingsByProject (deleteProject db now pid).2 pid = [] := by
  refine List.filter_eq_nil_iff.mpr (fun r hr => ?_)
  rcases (deleteProject_recordings_mem db now pid r).mp hr with ⟨hmem, hall⟩
  intro hbeq
  exact hall r (List.mem_filter.mpr ⟨hmem, hbeq⟩) rfl

theorem getAnalysesByRecording_deleteProject (db : DB) (now : Nat) (pid : String)
    (r : Recording) (hr : r ∈ getRecordingsByProject db pid) :
    getAnalysesByRecording (deleteProject db now pid).2 r.id = [] := by
  refine List.filter_eq_nil_iff.mpr (fun a ha => ?_)
  rcases deleteProject_analyses_sub db now pid a ha with ⟨_, hall⟩
  intro hbeq
  exact hall r hr (by simpa using hbeq)

theorem getAllProjects_perm (db : DB) : (getAllProjects db).Perm db.projects :=
  List.perm_insertionSort projOrder db.projects

theorem getAllProjects_sorted (db : DB) : List.Sorted projOrder (getAllProjects db) :=
  List.sorted_insertionSort projOrder db.projects

theorem find?_map_replace (l : List Project) (k : String) (u : Project) (hu : u.id = k)
    (hex : ∃ p ∈ l, p.id = k) :
    (l.map (fun q => if q.id == u.id then u else q)).find? (fun q => q.id == k) = some u := by
  induction l with
  | nil => simp at hex
  | cons q l ih =>
    rcases hex with ⟨p, hp, hpk⟩
    by_cases hq : q.id = k
    · have h1 : (q.id == u.id) = true := by rw [hu]; exact beq_iff_eq.mpr hq
      have h2 : (u.id == k) = true := beq_iff_eq.mpr hu
      rw [List.map_cons, if_pos h1]
      exact List.find?_cons_of_pos _ h2
    · have h1 : (q.id == u.id) = false := by rw [hu]; exact beq_eq_false_iff_ne.mpr hq
      have h2 : (q.id == k) = false := beq_eq_false_iff_ne.mpr hq
      have h3 : p ∈ l := by
        rcases List.mem_cons.mp hp with rfl | h
        · exact absurd hpk hq
        · exact h
      rw [List.map_cons, if_neg (by simp [h1]), List.find?_cons_of_neg _ (by simp [h2])]
      exact ih ⟨p, h3, hpk⟩

theorem putProject_of_exists (l : List Project) (u : Project)
    (hex : ∃ p ∈ l, p.id = u.id) :
    putProject l u = l.map (fun q => if q.id == u.id then u else q) := by
  have hany : l.any (fun q => q.id == u.id) = true := by
    rcases hex with ⟨p, hp, hpk⟩
    exact List.any_eq_true.mpr ⟨p, hp, beq_iff_eq.mpr hpk⟩
  simp [putProject, hany]

theorem mem_map_replace (l : List Project) (u : Project) (q : Project)
    (hq : q ∈ l.map (fun x => if x.id == u.id then u else x)) :
    q = u ∨ (q ∈ l ∧ q.id ≠ u.id) := by
  rcases List.mem_map.mp hq with ⟨x, hx, heq⟩
  by_cases h : x.id = u.id
  · left
    rw [← heq]
    simp [beq_iff_eq.mpr h]
  · right
    have h1 : (x.id == u.id) = false := beq_eq_false_iff_ne.mpr h
    rw [← heq]
    simp only [h1, if_false]
    exact ⟨hx, h⟩

theorem updateProject_found (db : DB) (now : Nat) (pid : String) (input : UpdateProjectInput)
    (p : Project) (hp : getProject db pid = some p) :
    (updateProject db now pid input).1 = some (applyProjectUpdate p input now) ∧
    (updateProject db now pid input).2.projects
      = putProject db.projects (applyProjectUpdate p input now) := by
  unfold getProject at hp
  unfold updateProject
  rw [hp]
  exact ⟨rfl, rfl⟩

theorem getProject_mem (db : DB) (pid : String) (p : Project) (hp : getProject db pid = some p) :
    p ∈ db.projects ∧ p.id = pid := by
  unfold getProject at hp
  have h1 := List.find?_some hp
  simp only [beq_iff_eq] at h1
  exact ⟨List.mem_of_find?_eq_some hp, h1⟩

theorem applyProjectUpdate_id (p : Project) (input : UpdateProjectInput) (now : Nat) :
    (applyProjectUpdate p input now).id = p.id := rfl

theorem applyProjectUpdate_updatedAt (p : Project) (input : UpdateProjectInput) (now : Nat) :
    (applyProjectUpdate p input now).updatedAt = now := rfl

theorem applyProjectUpdate_self_patch (p : Project) (now : Nat) (rids : List String) :
    applyProjectUpdate p
      { name := some p.name, description := p.description, status := some p.status,
        meetingVariables := p.meetingVariables, meetingPlan := p.meetingPlan,
        checklist := p.checklist, recordingIds := some rids } now
      = { p with recordingIds := rids, updatedAt := now } := by
  cases hd : p.description <;> cases hv : p.meetingVariables <;> cases hm : p.meetingPlan <;>
    cases hc : p.checklist <;>
    simp [applyProjectUpdate, hd, hv, hm, hc]

theorem statsInnerFold_byStatus (db : DB) (l : List Recording) (acc : StatsAcc) :
    (l.foldl (statsInnerStep db) acc).projectsByStatus = acc.projectsByStatus := by
  induction l generalizing acc with
  | nil => rfl
  | cons r l ih => rw [List.foldl_cons, ih]; rfl

theorem statsInnerFold_totalRecordings (db : DB) (l : List Recording) (acc : StatsAcc) :
    (l.foldl (statsInnerStep db) acc).totalRecordings = acc.totalRecordings := by
  induction l generalizing acc with
  | nil => rfl
  | cons r l ih => rw [List.foldl_cons, ih]; rfl

theorem statsFold_totalRecordings (db : DB) (l : List Project) (acc : StatsAcc) :
    (l.foldl (statsStep db) acc).totalRecordings
      = acc.totalRecordings + (l.map (fun p => (getRecordingsByProject db p.id).length)).sum := by
  induction l generalizing acc with
  | nil => simp
  | cons p l ih =>
    rw [List.foldl_cons, ih]
    have hstep : (statsStep db acc p).totalRecordings
        = acc.totalRecordings + (getRecordingsByProject db p.id).length := by
      unfold statsStep
      dsimp only
      rw [statsInnerFold_totalRecordings]
    rw [hstep]
    simp [Nat.add_assoc]

theorem statsFold_byStatus (db : DB) (l : List Project) (acc : StatsAcc) :
    (l.foldl (statsStep db) acc).projectsByStatus =
      { draft := acc.projectsByStatus.draft
          + l.countP (fun p => p.status == ProjectStatus.draft),
        in_progress := acc.projectsByStatus.in_progress
          + l.countP (fun p => p.status == ProjectStatus.in_progress),
        completed := acc.projectsByStatus.completed
          + l.countP (fun p => p.status == ProjectStatus.completed),
        archived := acc.projectsByStatus.archived
          + l.countP (fun p => p.status == ProjectStatus.archived) } := by
  induction l generalizing acc with
  | nil => simp
  | cons p l ih =>
    rw [List.foldl_cons, ih]
    have hstep : (statsStep db acc p).projectsByStatus = acc.projectsByStatus.incr p.status := by
      unfold statsStep
      dsimp only
      rw [statsInnerFold_byStatus]
    rw [hstep]
    cases hs : p.status <;>
      simp [StatusCounts.incr, List.countP_cons, hs, StatusCounts.mk.injEq, beq_iff_eq] <;>
      omega

theorem exportRecFold_fst (db : DB) (rs : List Recording)
    (acc : List RecordingMeta × List AnalysisRecord) :
    (rs.foldl (exportRecStep db) acc).1 = acc.1 ++ rs.map Recording.stripBlob := by
  induction rs generalizing acc with
  | nil => simp
  | cons r rs ih =>
    rw [List.foldl_cons, ih]
    simp [exportRecStep]

theorem exportRecFold_snd (db : DB) (rs : List Recording)
    (acc : List RecordingMeta × List AnalysisRecord) :
    (rs.foldl (exportRecStep db) acc).2
      = acc.2 ++ (rs.map (fun r => getAnalysesByRecording db r.id)).flatten := by
  induction rs generalizing acc with
  | nil => simp
  | cons r rs ih =>
    rw [List.foldl_cons, ih]
    simp [exportRecStep]

theorem exportProjFold_fst (db : DB) (ps : List Project)
    (acc : List RecordingMeta × List AnalysisRecord) :
    (ps.foldl (exportProjStep db) acc).1
      = acc.1
        ++ (ps.map (fun p => (getRecordingsByProject db p.id).map Recording.stripBlob)).flatten := by
  induction ps generalizing acc with
  | nil => simp
  | cons p ps ih =>
    rw [List.foldl_cons, ih]
    unfold exportProjStep
    rw [exportRecFold_fst]
    simp

theorem exportProjFold_snd (db : DB) (ps : List Project)
    (acc : List RecordingMeta × List AnalysisRecord) :
    (ps.foldl (exportProjStep db) acc).2
      = acc.2
        ++ (ps.map (fun p =>
            ((getRecordingsByProject db p.id).map
              (fun r => getAnalysesByRecording db r.id)).flatten)).flatten := by
  induction ps generalizing acc with
  | nil => simp
  | cons p ps ih =>
    rw [List.foldl_cons, ih]
    unfold exportProjStep
    rw [exportRecFold_snd]
    simp

theorem mem_getAllProjects (db : DB) (p : Project) :
    p ∈ getAllProjects db ↔ p ∈ db.projects := by
  simp [getAllProjects]

theorem exportAllData_projects (db : DB) :
    (exportAllData db).projects = getAllProjects db := rfl

theorem exportAllData_recordings_mem (db : DB) (m : RecordingMeta) :
    m ∈ (exportAllData db).recordings ↔
      ∃ p ∈ db.projects, ∃ r ∈ db.recordings, r.projectId = p.id
        ∧ Recording.stripBlob r = m := by
  unfold exportAllData
  dsimp only
  rw [exportProjFold_fst]
  simp only [List.nil_append, List.mem_flatten, List.mem_map]
  constructor
  · rintro ⟨s, ⟨p, hp, rfl⟩, hm⟩
    rcases List.mem_map.mp hm with ⟨r, hr, hrm⟩
    rcases List.mem_filter.mp hr with ⟨hrmem, hrid⟩
    exact ⟨p, (mem_getAllProjects db p).mp hp, r, hrmem, beq_iff_eq.mp hrid, hrm⟩
  · rintro ⟨p, hp, r, hr, hpid, hm⟩
    refine ⟨(getRecordingsByProject db p.id).map Recording.stripBlob, ⟨p, ?_, rfl⟩, ?_⟩
    · exact (mem_getAllProjects db p).mpr hp
    · exact List.mem_map.mpr ⟨r, List.mem_filter.mpr ⟨hr, beq_iff_eq.mpr hpid⟩, hm⟩

theorem exportAllData_analyses_mem (db : DB) (a : AnalysisRecord) :
    a ∈ (exportAllData db).analyses ↔
      ∃ p ∈ db.projects, ∃ r ∈ db.recordings, r.projectId = p.id
        ∧ a ∈ db.analyses ∧ a.recordingId = r.id := by
  unfold exportAllData
  dsimp only
  rw [exportProjFold_snd]
  simp only [List.nil_append, List.mem_flatten, List.mem_map]
  constructor
  · rintro ⟨s, ⟨p, hp, rfl⟩, hs⟩
    rcases List.mem_flatten.mp hs with ⟨t, ht, hat⟩
    rcases List.mem_map.mp ht with ⟨r, hr, rfl⟩
    rcases List.mem_filter.mp hr with ⟨hrmem, hrid⟩
    rcases List.mem_filter.mp hat with ⟨hamem, harec⟩
    exact ⟨p, (mem_getAllProjects db p).mp hp, r, hrmem, beq_iff_eq.mp hrid,
      hamem, beq_iff_eq.mp harec⟩
  · rintro ⟨p, hp, r, hr, hpid, hamem, harec⟩
    refine ⟨((getRecordingsByProject db p.id).map
        (fun r => getAnalysesByRecording db r.id)).flatten, ⟨p, ?_, rfl⟩, ?_⟩
    · exact (mem_getAllProjects db p).mpr hp
    · refine List.mem_flatten.mpr ⟨getAnalysesByRecording db r.id, ?_, ?_⟩
      · exact List.mem_map.mpr ⟨r, List.mem_filter.mpr ⟨hr, beq_iff_eq.mpr hpid⟩, rfl⟩
      · exact List.mem_filter.mpr ⟨hamem, beq_iff_eq.mpr harec⟩

theorem find?_append_right {α : Type} (l1 l2 : List α) (p : α → Bool)
    (h : ∀ x ∈ l1, p x = false) :
    (l1 ++ l2).find? p = l2.find? p := by
  have h0 : l1.find? p = none := List.find?_eq_none.mpr (fun x hx => by simp [h x hx])
  rw [List.find?_append, h0]
  rfl

theorem getRecording_deleteRecording_self (db : DB) (now : Nat) (id : String) :
    getRecording (deleteRecording db now id).2 id = none := by
  unfold getRecording
  rw [deleteRecording_recordings]
  refine List.find?_eq_none.mpr (fun r hr => ?_)
  have := (List.mem_filter.mp hr).2
  simpa using this

theorem getAnalysis_deleteAnalysis_self (db : DB) (id : String) :
    getAnalysis (deleteAnalysis db id).2 id = none := by
  unfold getAnalysis deleteAnalysis
  dsimp only
  refine List.find?_eq_none.mpr (fun a ha => ?_)
  have := (List.mem_filter.mp ha).2
  simpa using this

/-! ## Sample data used by witnesses and counterexamples -/

/-- The empty store (freshly initialized database). -/
def emptyDB : DB := { projects := [], recordings := [], analyses := [] }

/-- A small concrete checklist item payload. -/
def sampleItem : ChecklistItem :=
  { id := "q1", question := "size?", importance := .high, keywords := ["size"] }

/-- A small concrete checklist payload. -/
def sampleChecklist : Checklist :=
  { name := "hearing", description := "basic", version := "1",
    categories := [{ name := "basics", items := [sampleItem] }] }

/-- A small concrete analysis-result payload. -/
def sampleResult : AnalysisResult :=
  { totalItems := 1, coveredItems := 1, missingItems := 0, partialItems := 0,
    coverageRate := 100, results := [], summary := "ok", recommendations := [] }

/-- Concrete Project `p1` owning Recordings `r1` and `r2`. -/
def projA : Project :=
  { id := "p1", name := "Acme Co", description := none, status := .draft,
    createdAt := 1, updatedAt := 1, meetingVariables := none, meetingPlan := none,
    checklist := none, recordingIds := ["r1", "r2"] }

/-- Concrete Recording `r1` under `p1` with one analysis. -/
def recA : Recording :=
  { id := "r1", projectId := "p1", name := "call-1", createdAt := 2, duration := 120,
    audioBlob := { data := [1, 2, 3], type := "audio/webm" }, mimeType := "audio/webm",
    fileSize := 3, source := .uploaded, transcript := none, transcribedAt := none,
    analysisIds := ["a1"] }

/-- Concrete Recording `r2` under `p1` with one analysis. -/
def recB : Recording :=
  { id := "r2", projectId := "p1", name := "call-2", createdAt := 3, duration := 60,
    audioBlob := { data := [4, 5], type := "audio/webm" }, mimeType := "audio/webm",
    fileSize := 2, source := .realtime, transcript := some "hello", transcribedAt := some 3,
    analysisIds := ["a2"] }

/-- Concrete AnalysisRecord `a1` of `r1`. -/
def anaA : AnalysisRecord :=
  { id := "a1", recordingId := "r1", projectId := "p1", createdAt := 4,
    checklistSnapshot := sampleChecklist, result := sampleResult,
    transcriptSnapshot := "t1" }

/-- Concrete AnalysisRecord `a2` of `r2`. -/
def anaB : AnalysisRecord :=
  { id := "a2", recordingId := "r2", projectId := "p1", createdAt := 5,
    checklistSnapshot := sampleChecklist, result := sampleResult,
    transcriptSnapshot := "t2" }

/-- A populated store: one Project, two Recordings, two AnalysisRecords. -/
def dbFull : DB := { projects := [projA], recordings := [recA, recB], analyses := [anaA, anaB] }

/-! ## Claims -/

/-- Claim C2: after `deleteProject(p.id)` resolves, `getProject(p.id)` is
`null`, `getRecordingsByProject(p.id)` is empty, and for every id of a
Recording that belonged to `p` before the call, `getAnalysesByRecording(id)`
is empty.  Holds for every store state, any number of Recordings and
AnalysisRecords. -/
theorem C2_deleteProject_cascade_complete (db : DB) (now : Nat) (pid : String) :
    getProject (deleteProject db now pid).2 pid = none ∧
    getRecordingsByProject (deleteProject db now pid).2 pid = [] ∧
    ∀ r ∈ getRecordingsByProject db pid,
      getAnalysesByRecording (deleteProject db now pid).2 r.id = [] :=
  ⟨getProject_deleteProject_self db now pid,
   getRecordingsByProject_deleteProject_self db now pid,
   fun r hr => getAnalysesByRecording_deleteProject db now pid r hr⟩

/-- Witness for C2 on the concrete populated store: deleting `p1` leaves no
project, no recording under `p1`, and no analysis under either prior
recording id. -/
theorem C2_witness :
    getProject (deleteProject dbFull 10 "p1").2 "p1" = none ∧
    getRecordingsByProject (deleteProject dbFull 10 "p1").2 "p1" = [] ∧
    getAnalysesByRecording (deleteProject dbFull 10 "p1").2 recA.id = [] ∧
    getAnalysesByRecording (deleteProject dbFull 10 "p1").2 recB.id = [] := by
  have h := C2_deleteProject_cascade_complete dbFull 10 "p1"
  exact ⟨h.1, h.2.1, h.2.2 recA (by decide), h.2.2 recB (by decide)⟩

/-- Claim C5 counterexample: on the empty store no entity with id
`"missing"` exists in any collection, yet every delete operation resolves
`true` — the claim requires `false` for a nonexistent id. -/
theorem C5_counterexample :
    getProject emptyDB "missing" = none ∧ (deleteProject emptyDB 0 "missing").1 = true ∧
    getRecording emptyDB "missing" = none ∧ (deleteRecording emptyDB 0 "missing").1 = true ∧
    getAnalysis emptyDB "missing" = none ∧ (deleteAnalysis emptyDB "missing").1 = true :=
  ⟨rfl, rfl, rfl, rfl, rfl, rfl⟩

/-- Claim C5 (amended): every delete operation (`deleteProject`,
`deleteRecording`, `deleteAnalysis`) resolves `true` unconditionally —
whether or not an entity with that id existed — and afterwards no entity
with that id remains in its collection. -/
theorem C5_delete_always_resolves_true (db : DB) (now : Nat) (id : String) :
    (deleteProject db now id).1 = true ∧
    (deleteRecording db now id).1 = true ∧
    (deleteAnalysis db id).1 = true ∧
    getProject (deleteProject db now id).2 id = none ∧
    getRecording (deleteRecording db now id).2 id = none ∧
    getAnalysis (deleteAnalysis db id).2 id = none :=
  ⟨rfl, rfl, rfl, getProject_deleteProject_self db now id,
   getRecording_deleteRecording_self db now id, getAnalysis_deleteAnalysis_self db id⟩

/-- Claim C8: `createRecording` whose `projectId` matches no stored Project
still resolves with the created Recording; no Project record is modified;
`getRecordingsByProject` of that projectId subsequently returns the new
Recording; and no Project's `recordingIds` references it.  (`rid` is the
generated id, fresh per the store's id-generation contract.) -/
theorem C8_createRecording_unlinked (db : DB) (now : Nat) (rid : String)
    (input : CreateRecordingInput)
    (hnoproj : getProject db input.projectId = none)
    (hfresh : ∀ r ∈ db.recordings, r.id ≠ rid)
    (hnoref : ∀ p ∈ db.projects, rid ∉ p.recordingIds) :
    createRecording db now rid input
      = some (mkRecording now rid input,
          { db with recordings := db.recordings ++ [mkRecording now rid input] }) ∧
    (mkRecording now rid input).id = rid ∧
    ({ db with recordings := db.recordings ++ [mkRecording now rid input] } : DB).projects
      = db.projects ∧
    mkRecording now rid input ∈ getRecordingsByProject
      ({ db with recordings := db.recordings ++ [mkRecording now rid input] }) input.projectId ∧
    ∀ p ∈ ({ db with recordings := db.recordings ++ [mkRecording now rid input] } : DB).projects,
      rid ∉ p.recordingIds := by
  have hany : (db.recordings.any (fun r => r.id == rid)) = false :=
    List.any_eq_false.mpr (fun r hr => by simp [hfresh r hr])
  refine ⟨?_, rfl, rfl, ?_, hnoref⟩
  · unfold createRecording
    rw [hnoproj]
    dsimp only
    rw [if_neg (by simp [hany])]
  · refine List.mem_filter.mpr ⟨List.mem_append_right _ ?_, ?_⟩
    · exact List.mem_singleton.mpr rfl
    · simp [mkRecording]

/-- Witness for C8: creating a recording under the nonexistent project id
`"ghost"` in the populated store. -/
theorem C8_witness :
    createRecording dbFull 20 "r9"
      { projectId := "ghost", name := "orphan", audioBlob := { data := [7], type := "audio/webm" },
        mimeType := "audio/webm", duration := 5, source := .uploaded, transcript := none }
      = some (mkRecording 20 "r9"
          { projectId := "ghost", name := "orphan", audioBlob := { data := [7], type := "audio/webm" },
            mimeType := "audio/webm", duration := 5, source := .uploaded, transcript := none },
          { dbFull with recordings := dbFull.recordings ++ [mkRecording 20 "r9"
            { projectId := "ghost", name := "orphan", audioBlob := { data := [7], type := "audio/webm" },
              mimeType := "audio/webm", duration := 5, source := .uploaded, transcript := none }] }) ∧
    mkRecording 20 "r9"
      { projectId := "ghost", name := "orphan", audioBlob := { data := [7], type := "audio/webm" },
        mimeType := "audio/webm", duration := 5, source := .uploaded, transcript := none }
      ∈ getRecordingsByProject
        ({ dbFull with recordings := dbFull.recordings ++ [mkRecording 20 "r9"
          { projectId := "ghost", name := "orphan", audioBlob := { data := [7], type := "audio/webm" },
            mimeType := "audio/webm", duration := 5, source := .uploaded, transcript := none }] })
        "ghost" := by
  have h := C8_createRecording_unlinked dbFull 20 "r9"
    { projectId := "ghost", name := "orphan", audioBlob := { data := [7], type := "audio/webm" },
      mimeType := "audio/webm", duration := 5, source := .uploaded, transcript := none }
    (by decide) (by decide) (by decide)
  exact ⟨h.1, h.2.2.2.1⟩

/-- Claim C9: `createAnalysis` whose `recordingId` matches no stored Recording
still creates and stores the AnalysisRecord — `getAnalysis` of its id returns
it and `getAnalysesByRecording(recordingId)` includes it — and no stored
Recording's `analysisIds` list is modified. -/
theorem C9_createAnalysis_unlinked (db : DB) (now : Nat) (aid rid pid : String)
    (cs : Checklist) (res : AnalysisResult) (ts : String)
    (hnorec : getRecording db rid = none)
    (hfresh : ∀ a ∈ db.analyses, a.id ≠ aid) :
    createAnalysis db now aid rid pid cs res ts
      = some (mkAnalysis now aid rid pid cs res ts,
          { db with analyses := db.analyses ++ [mkAnalysis now aid rid pid cs res ts] }) ∧
    ({ db with analyses := db.analyses ++ [mkAnalysis now aid rid pid cs res ts] } : DB).recordings
      = db.recordings ∧
    getAnalysis ({ db with analyses := db.analyses ++ [mkAnalysis now aid rid pid cs res ts] })
      aid = some (mkAnalysis now aid rid pid cs res ts) ∧
    mkAnalysis now aid rid pid cs res ts ∈ getAnalysesByRecording
      ({ db with analyses := db.analyses ++ [mkAnalysis now aid rid pid cs res ts] }) rid := by
  have hany : (db.analyses.any (fun a => a.id == aid)) = false :=
    List.any_eq_false.mpr (fun a ha => by simp [hfresh a ha])
  refine ⟨?_, rfl, ?_, ?_⟩
  · unfold createAnalysis
    rw [hnorec]
    dsimp only
    rw [if_neg (by simp [hany])]
  · unfold getAnalysis
    dsimp only
    rw [find?_append_right _ _ _ (fun a ha => by simp [hfresh a ha])]
    exact List.find?_cons_of_pos _ (by simp [mkAnalysis])
  · refine List.mem_filter.mpr ⟨List.mem_append_right _ ?_, ?_⟩
    · exact List.mem_singleton.mpr rfl
    · simp [mkAnalysis]

/-- Witness for C9: creating an analysis under the nonexistent recording id
`"ghost-r"` in the populated store. -/
theorem C9_witness :
    createAnalysis dbFull 30 "a9" "ghost-r" "p1" sampleChecklist sampleResult "tw"
      = some (mkAnalysis 30 "a9" "ghost-r" "p1" sampleChecklist sampleResult "tw",
          { dbFull with analyses := dbFull.analyses
              ++ [mkAnalysis 30 "a9" "ghost-r" "p1" sampleChecklist sampleResult "tw"] }) ∧
    getAnalysis ({ dbFull with analyses := dbFull.analyses
        ++ [mkAnalysis 30 "a9" "ghost-r" "p1" sampleChecklist sampleResult "tw"] }) "a9"
      = some (mkAnalysis 30 "a9" "ghost-r" "p1" sampleChecklist sampleResult "tw") := by
  have h := C9_createAnalysis_unlinked dbFull 30 "a9" "ghost-r" "p1"
    sampleChecklist sampleResult "tw" (by decide) (by decide)
  exact ⟨h.1, h.2.2.1⟩

/-- Claim C10: `deleteProject(id)` deletes only the AnalysisRecords reachable
through Recordings stored with that projectId at call time: an AnalysisRecord
whose `projectId` equals the deleted id but whose `recordingId` matches no
stored Recording survives, so `getAnalysesByProject(id)` returns a non-empty
list after `deleteProject(id)` resolves. -/
theorem C10_deleteProject_spares_orphan_analyses (db : DB) (now : Nat) (pid : String)
    (a : AnalysisRecord) (ha : a ∈ db.analyses) (hpid : a.projectId = pid)
    (hids : (db.analyses.map (fun x => x.id)).Nodup)
    (horphan : ∀ r ∈ db.recordings, r.id ≠ a.recordingId) :
    a ∈ getAnalysesByProject (deleteProject db now pid).2 pid ∧
    getAnalysesByProject (deleteProject db now pid).2 pid ≠ [] := by
  have huni : ∀ b ∈ db.analyses, b.id = a.id → b = a := fun b hb hid =>
    List.inj_on_of_nodup_map hids hb ha hid
  have hne : ∀ r ∈ getRecordingsByProject db pid, a.recordingId ≠ r.id := fun r hr h =>
    horphan r (List.mem_filter.mp hr).1 h.symm
  have hmem := deleteProject_preserves_analysis db now pid a ha huni hne
  have hin : a ∈ getAnalysesByProject (deleteProject db now pid).2 pid :=
    List.mem_filter.mpr ⟨hmem, beq_iff_eq.mpr hpid⟩
  exact ⟨hin, List.ne_nil_of_mem hin⟩

/-- Concrete AnalysisRecord whose `recordingId` matches no stored Recording
(its Recording was never stored or was deleted out of band). -/
def anaOrphan : AnalysisRecord :=
  { id := "a7", recordingId := "ghost-r", projectId := "p1", createdAt := 6,
    checklistSnapshot := sampleChecklist, result := sampleResult,
    transcriptSnapshot := "t7" }

/-- Store holding Project `p1` and an orphan AnalysisRecord pointing at a
nonexistent Recording of `p1`. -/
def dbOrphan : DB := { projects := [projA], recordings := [], analyses := [anaOrphan] }

/-- Witness for C10: after `deleteProject("p1")` on the orphan store the
orphan analysis is still returned by `getAnalysesByProject("p1")`. -/
theorem C10_witness :
    anaOrphan ∈ getAnalysesByProject (deleteProject dbOrphan 40 "p1").2 "p1" ∧
    getAnalysesByProject (deleteProject dbOrphan 40 "p1").2 "p1" ≠ [] := by
  exact C10_deleteProject_spares_orphan_analyses dbOrphan 40 "p1" anaOrphan
    (by decide) (by decide) (by decide) (by decide)

theorem mkRecording_id (now : Nat) (rid : String) (input : CreateRecordingInput) :
    (mkRecording now rid input).id = rid := rfl

theorem mkRecording_projectId (now : Nat) (rid : String) (input : CreateRecordingInput) :
    (mkRecording now rid input).projectId = input.projectId := rfl

/-- Back-reference invariant of the data model: a Project's `recordingIds` is
exactly (as a duplicate-counting collection) the ids of the stored Recordings
whose `projectId` equals the Project's id. -/
def recordingLinkInv (db : DB) (p : Project) : Prop :=
  p.recordingIds.Perm
    ((db.recordings.filter (fun r => r.projectId == p.id)).map (fun r => r.id))

/-- Claim C3: for an existing parent Project, after `createRecording` resolves
the parent's `recordingIds` contains the new Recording's id exactly once, has
no duplicates, and the invariant that `recordingIds` is exactly the set of
stored Recording ids with this `projectId` is maintained.  (`rid` is the
generated id, fresh per the store's id-generation contract.) -/
theorem C3_createRecording_backreference (db : DB) (now : Nat) (rid : String)
    (input : CreateRecordingInput) (p : Project)
    (hp : getProject db input.projectId = some p)
    (hfresh : ∀ r ∈ db.recordings, r.id ≠ rid)
    (hnd : (db.recordings.map (fun r => r.id)).Nodup)
    (hinv : recordingLinkInv db p) :
    ∃ rec db', createRecording db now rid input = some (rec, db') ∧
      ∃ p', getProject db' input.projectId = some p' ∧
        p'.recordingIds.count rid = 1 ∧
        p'.recordingIds.Nodup ∧
        recordingLinkInv db' p' := by
  obtain ⟨hpmem, hpid⟩ := getProject_mem db input.projectId p hp
  have hany : (db.recordings.any (fun r => r.id == rid)) = false :=
    List.any_eq_false.mpr (fun r hr => by simp [hfresh r hr])
  have hnotin : rid ∉ p.recordingIds := by
    intro hmem
    have h2 := hinv.mem_iff.mp hmem
    rcases List.mem_map.mp h2 with ⟨r, hr, hrid⟩
    exact hfresh r (List.mem_filter.mp hr).1 hrid
  have hidsNodup : p.recordingIds.Nodup := by
    refine hinv.nodup_iff.mpr ?_
    exact hnd.sublist (List.Sublist.map _ (List.filter_sublist db.recordings))
  unfold createRecording
  rw [hp]
  dsimp only
  simp only [mkRecording_id]
  rw [updateProject_recordings]
  rw [if_neg (by simp [hany])]
  refine ⟨_, _, rfl, ?_⟩
  have hfound := updateProject_found db now input.projectId
    { name := some p.name, description := p.description, status := some p.status,
      meetingVariables := p.meetingVariables, meetingPlan := p.meetingPlan,
      checklist := p.checklist, recordingIds := some (p.recordingIds ++ [rid]) } p hp
  have hupd := applyProjectUpdate_self_patch p now (p.recordingIds ++ [rid])
  refine ⟨{ p with recordingIds := p.recordingIds ++ [rid], updatedAt := now }, ?_, ?_, ?_, ?_⟩
  · show getProject _ input.projectId = _
    unfold getProject
    dsimp only
    rw [hfound.2, hupd]
    rw [putProject_of_exists _ _ ⟨p, hpmem, by simp [hpid]⟩]
    exact find?_map_replace _ input.projectId _ (by simpa using hpid) ⟨p, hpmem, hpid⟩
  · dsimp only
    rw [List.count_append]
    simp [List.count_eq_zero.mpr hnotin]
  · dsimp only
    simp [List.nodup_append, hidsNodup, hnotin]
  · unfold recordingLinkInv
    dsimp only
    rw [List.filter_append]
    have hmk : ((mkRecording now rid input).projectId == p.id) = true := by
      rw [mkRecording_projectId, ← hpid]
      exact beq_self_eq_true p.id
    rw [show (List.filter (fun r => r.projectId == p.id) [mkRecording now rid input])
        = [mkRecording now rid input] by simp [hmk]]
    rw [List.map_append]
    exact hinv.append_right _

/-- Claim C4: `getAllProjects()` returns every stored Project, sorted by
`updatedAt` descending regardless of creation order; and after `updateProject`
on an older Project (one whose peers were all updated strictly before the
current time `now`), that Project appears first. -/
theorem C4_getAllProjects_ordering (db : DB) (now : Nat) (pid : String)
    (input : UpdateProjectInput) (p : Project)
    (hp : getProject db pid = some p)
    (holder : ∀ q ∈ db.projects, q.id ≠ pid → q.updatedAt < now) :
    (getAllProjects db).Perm db.projects ∧
    (getAllProjects db).Pairwise (fun a b => b.updatedAt ≤ a.updatedAt) ∧
    ∃ p', (updateProject db now pid input).1 = some p' ∧ p'.id = pid ∧
      p'.updatedAt = now ∧
      (getAllProjects (updateProject db now pid input).2).head? = some p' := by
  obtain ⟨hpmem, hpid⟩ := getProject_mem db pid p hp
  refine ⟨getAllProjects_perm db, ?_, ?_⟩
  · refine List.Pairwise.imp ?_ (getAllProjects_sorted db)
    intro a b hab
    rcases hab with h | ⟨h, _⟩
    · exact Nat.le_of_lt h
    · exact Nat.le_of_eq h.symm
  · have hfound := updateProject_found db now pid input p hp
    refine ⟨applyProjectUpdate p input now, hfound.1, ?_, rfl, ?_⟩
    · rw [applyProjectUpdate_id]; exact hpid
    have hex : ∃ q ∈ db.projects, q.id = (applyProjectUpdate p input now).id :=
      ⟨p, hpmem, (applyProjectUpdate_id p input now).symm⟩
    have hpc : (updateProject db now pid input).2.projects
        = db.projects.map
            (fun q => if q.id == (applyProjectUpdate p input now).id
              then applyProjectUpdate p input now else q) := by
      rw [hfound.2, putProject_of_exists _ _ hex]
    have hmemupd : applyProjectUpdate p input now ∈ (updateProject db now pid input).2.projects := by
      rw [hpc]
      refine List.mem_map.mpr ⟨p, hpmem, ?_⟩
      rw [if_pos (beq_iff_eq.mpr (applyProjectUpdate_id p input now).symm)]
    have hothers : ∀ q ∈ (updateProject db now pid input).2.projects,
        q = applyProjectUpdate p input now ∨ q.updatedAt < now := by
      intro q hq
      rw [hpc] at hq
      rcases mem_map_replace _ _ _ hq with h | ⟨hmem, hne⟩
      · exact Or.inl h
      · refine Or.inr (holder q hmem ?_)
        rw [applyProjectUpdate_id] at hne
        intro heq
        exact hne (heq.trans hpid.symm)
    obtain ⟨h, t, hht⟩ : ∃ h t, getAllProjects (updateProject db now pid input).2 = h :: t := by
      cases hsort : getAllProjects (updateProject db now pid input).2 with
      | nil =>
        have hin := (mem_getAllProjects _ (applyProjectUpdate p input now)).mpr hmemupd
        rw [hsort] at hin
        cases hin
      | cons h t => exact ⟨h, t, rfl⟩
    have hhead_mem : h ∈ (updateProject db now pid input).2.projects := by
      refine (mem_getAllProjects _ _).mp ?_
      rw [hht]
      exact List.mem_cons_self h t
    have hupdmem2 : applyProjectUpdate p input now ∈ h :: t := by
      rw [← hht]
      exact (mem_getAllProjects _ _).mpr hmemupd
    rcases List.mem_cons.mp hupdmem2 with heq | hin
    · rw [hht]
      exact congrArg some heq.symm
    · have hsorted := getAllProjects_sorted (updateProject db now pid input).2
      rw [hht] at hsorted
      have hrel := List.rel_of_sorted_cons hsorted _ hin
      rcases hothers h hhead_mem with heq2 | hlt
      · rw [hht, heq2]; rfl
      · exfalso
        rcases hrel with hlt2 | ⟨heq3, _⟩
        · rw [applyProjectUpdate_updatedAt] at hlt2
          omega
        · rw [applyProjectUpdate_updatedAt] at heq3
          omega

/-- Claim C6: for every corpus state, `getProjectStats().totalRecordings`
equals the sum over all stored Projects of `getRecordingsByProject(p.id)`
lengths, and `projectsByStatus` carries a count — including zero — for each of
the four statuses, equal to the number of stored Projects with that status. -/
theorem C6_getProjectStats_correct (db : DB) :
    (getProjectStats db).totalRecordings
      = (db.projects.map (fun p => (getRecordingsByProject db p.id).length)).sum ∧
    (getProjectStats db).projectsByStatus.draft
      = (db.projects.filter (fun p => p.status == ProjectStatus.draft)).length ∧
    (getProjectStats db).projectsByStatus.in_progress
      = (db.projects.filter (fun p => p.status == ProjectStatus.in_progress)).length ∧
    (getProjectStats db).projectsByStatus.completed
      = (db.projects.filter (fun p => p.status == ProjectStatus.completed)).length ∧
    (getProjectStats db).projectsByStatus.archived
      = (db.projects.filter (fun p => p.status == ProjectStatus.archived)).length := by
  have hperm := getAllProjects_perm db
  refine ⟨?_, ?_, ?_, ?_, ?_⟩
  · unfold getProjectStats
    dsimp only
    rw [statsFold_totalRecordings]
    rw [Nat.zero_add]
    exact (hperm.map _).sum_eq
  all_goals
    unfold getProjectStats
  all_goals
    dsimp only
  all_goals
    rw [statsFold_byStatus]
  all_goals
    dsimp only
  all_goals
    rw [Nat.zero_add, hperm.countP_eq, List.countP_eq_length_filter]

/-- Concrete Recording whose `projectId` matches no stored Project. -/
def recOrphan : Recording :=
  { id := "r8", projectId := "ghost", name := "stray", createdAt := 1, duration := 9,
    audioBlob := { data := [1], type := "audio/webm" }, mimeType := "audio/webm",
    fileSize := 1, source := .uploaded, transcript := none, transcribedAt := none,
    analysisIds := [] }

/-- Store holding only an orphan Recording (reachable store state per the
unlinked-creation tolerance of `createRecording`). -/
def dbStray : DB := { projects := [], recordings := [recOrphan], analyses := [] }

/-- Claim C7 counterexample: `exportAllData` walks Recordings only through
stored Projects, so the stored orphan Recording `recOrphan` is not exported —
the claim requires every stored Recording (blob-stripped) to be returned. -/
theorem C7_counterexample :
    recOrphan ∈ dbStray.recordings ∧
    (exportAllData dbStray).recordings = [] ∧
    Recording.stripBlob recOrphan ∉ (exportAllData dbStray).recordings := by
  refine ⟨by decide, rfl, ?_⟩
  intro h
  cases h

/-- Claim C7 (amended): `exportAllData` returns every stored Project, and —
when every Recording's `projectId` references a stored Project and every
AnalysisRecord's `recordingId` references a stored Recording — exactly the
stored Recordings with only `audioBlob` removed (all other fields retained via
`stripBlob`) and exactly the stored AnalysisRecords; Recordings and
AnalysisRecords not reachable through a stored Project are omitted. -/
theorem C7_export_complete_when_linked (db : DB)
    (hrec : ∀ r ∈ db.recordings, ∃ p ∈ db.projects, p.id = r.projectId)
    (hana : ∀ a ∈ db.analyses, ∃ r ∈ db.recordings, r.id = a.recordingId) :
    (∀ p : Project, p ∈ (exportAllData db).projects ↔ p ∈ db.projects) ∧
    (∀ m : RecordingMeta, m ∈ (exportAllData db).recordings ↔
        ∃ r ∈ db.recordings, Recording.stripBlob r = m) ∧
    (∀ a : AnalysisRecord, a ∈ (exportAllData db).analyses ↔ a ∈ db.analyses) := by
  refine ⟨?_, ?_, ?_⟩
  · intro p
    rw [exportAllData_projects]
    exact mem_getAllProjects db p
  · intro m
    rw [exportAllData_recordings_mem]
    constructor
    · rintro ⟨p, _, r, hr, _, hm⟩
      exact ⟨r, hr, hm⟩
    · rintro ⟨r, hr, hm⟩
      rcases hrec r hr with ⟨p, hp, hpid⟩
      exact ⟨p, hp, r, hr, hpid.symm, hm⟩
  · intro a
    rw [exportAllData_analyses_mem]
    constructor
    · rintro ⟨p, _, r, _, _, ha2, _⟩
      exact ha2
    · intro ha2
      rcases hana a ha2 with ⟨r, hr, hrid⟩
      rcases hrec r hr with ⟨p, hp, hpid⟩
      exact ⟨p, hp, r, hr, hpid.symm, ha2, hrid.symm⟩

/-- Witness for C7 (amended) on the fully linked populated store: the
blob-stripped `recA` and the analysis `anaA` are both exported. -/
theorem C7_witness :
    Recording.stripBlob recA ∈ (exportAllData dbFull).recordings ∧
    anaA ∈ (exportAllData dbFull).analyses := by
  have h := C7_export_complete_when_linked dbFull (by decide) (by decide)
  exact ⟨(h.2.1 (Recording.stripBlob recA)).mpr ⟨recA, by decide, rfl⟩,
    (h.2.2 anaA).mpr (by decide)⟩

/-- Concrete Project `p2` with no Recordings yet. -/
def projB : Project :=
  { id := "p2", name := "Beta LLC", description := some "note", status := .in_progress,
    createdAt := 1, updatedAt := 2, meetingVariables := none, meetingPlan := none,
    checklist := some sampleChecklist, recordingIds := [] }

/-- Store holding only Project `p2`. -/
def dbOneProj : DB := { projects := [projB], recordings := [], analyses := [] }

/-- Concrete `createRecording` input targeting `p2`. -/
def inputB : CreateRecordingInput :=
  { projectId := "p2", name := "first call", audioBlob := { data := [9, 9], type := "audio/webm" },
    mimeType := "audio/webm", duration := 3, source := .realtime, transcript := some "hi" }

/-- Witness for C3: creating recording `r5` under the existing project `p2`. -/
theorem C3_witness :
    ∃ rec db', createRecording dbOneProj 50 "r5" inputB = some (rec, db') ∧
      ∃ p', getProject db' inputB.projectId = some p' ∧
        p'.recordingIds.count "r5" = 1 ∧
        p'.recordingIds.Nodup ∧
        recordingLinkInv db' p' := by
  exact C3_createRecording_backreference dbOneProj 50 "r5" inputB projB
    (by decide) (by decide) (by decide)
    (by unfold recordingLinkInv dbOneProj projB; exact List.Perm.refl _)

/-- Concrete Project `p3`, more recently updated than `p1`. -/
def projC : Project :=
  { id := "p3", name := "Gamma KK", description := none, status := .completed,
    createdAt := 4, updatedAt := 5, meetingVariables := none, meetingPlan := none,
    checklist := none, recordingIds := [] }

/-- Store with two Projects: `p1` (older, updatedAt 1) and `p3` (updatedAt 5). -/
def dbTwoProj : DB := { projects := [projA, projC], recordings := [], analyses := [] }

/-- Witness for C4: updating the older project `p1` at time 100 moves it to
the front of `getAllProjects`. -/
theorem C4_witness :
    (getAllProjects dbTwoProj).Perm dbTwoProj.projects ∧
    (getAllProjects dbTwoProj).Pairwise (fun a b => b.updatedAt ≤ a.updatedAt) ∧
    ∃ p', (updateProject dbTwoProj 100 "p1" { status := some .archived }).1 = some p' ∧
      p'.id = "p1" ∧ p'.updatedAt = 100 ∧
      (getAllProjects (updateProject dbTwoProj 100 "p1" { status := some .archived }).2).head?
        = some p' := by
  exact C4_getAllProjects_ordering dbTwoProj 100 "p1" { status := some .archived } projA
    (by decide) (by decide)

/-- The storable (typed) form of a concrete Recording fed to the codec:
object keys and value shapes exactly as the `Recording` interface lays them
out, with `createdAt`/`transcribedAt` as Date values and `audioBlob` a binary
payload of bytes `[1, 2, 3]`. -/
def sampleRecordingJS : JSValue :=
  .obj [("id", .str "r1"), ("projectId", .str "p1"), ("name", .str "call-1"),
        ("createdAt", .date 1700000000123), ("duration", .num 120),
        ("audioBlob", .blob [1, 2, 3]), ("mimeType", .str "audio/webm"),
        ("fileSize", .num 3), ("source", .str "uploaded"),
        ("transcript", .str "hello"), ("transcribedAt", .date 1700000000123),
        ("analysisIds", .arr [])]

/-- Extract the `createdAt` property of a stored object. -/
def createdAtField : JSValue → Option JSValue
  | .obj kvs => kvs.lookup "createdAt"
  | _ => none

/-- Claim C1 fails on the code (code bug): for the concrete Recording
`sampleRecordingJS`, `deserializeFromStorage(serializeForStorage(x))` restores
the temporal field `createdAt` but replaces the `audioBlob` binary payload
`[1, 2, 3]` by the empty object `{}` — `JSON.stringify` serializes a `Blob`
(no enumerable own properties) as `{}` — so the round trip is not deep-equal
to `x` and the audio bytes are lost, contradicting the round-trip law and the
byte-for-byte binary-preservation requirement. -/
theorem C1_roundTrip_loses_audio_bytes :
    audioBlobField sampleRecordingJS = some (JSValue.blob [1, 2, 3]) ∧
    audioBlobField (deserializeFromStorage (serializeForStorage sampleRecordingJS))
      = some (JSValue.obj []) ∧
    createdAtField (deserializeFromStorage (serializeForStorage sampleRecordingJS))
      = some (JSValue.date 1700000000123) ∧
    deserializeFromStorage (serializeForStorage sampleRecordingJS) ≠ sampleRecordingJS := by
  refine ⟨rfl, rfl, rfl, ?_⟩
  intro h
  have h2 : (some (JSValue.obj []) : Option JSValue) = some (JSValue.blob [1, 2, 3]) :=
    calc (some (JSValue.obj []) : Option JSValue)
        = audioBlobField (deserializeFromStorage (serializeForStorage sampleRecordingJS)) := rfl
      _ = audioBlobField sampleRecordingJS := congrArg audioBlobField h
      _ = some (JSValue.blob [1, 2, 3]) := rfl
  exact JSValue.noConfusion (Option.some.inj h2)
